import Mathlib

/-!
Verification of the hackmate-ai real-time data-synchronization layer
(`src/lib/firestore.ts`, here `src/unnamed/part_000`) and the optimistic
task-update handler of the project page, against the repository
specification.  Time is modelled in integer milliseconds; the store is a
plain record of document lists; `serverTimestamp` values are modelled as
the current clock value; randomness is an explicit oracle argument.
-/

namespace Hackmate

/-- Duration of a hackathon project: `"24h" | "48h"`. -/
inductive Duration
  | h24
  | h48
  deriving DecidableEq, Repr

/-- `durationHours = duration === "24h" ? 24 : 48` (part_000 line 604). -/
def Duration.hours : Duration → Nat
  | .h24 => 24
  | .h48 => 48

/-- A milestone record as written by `createDefaultMilestones`
(part_000 lines 606-635).  `deadline` and `created_at` are epoch
milliseconds. -/
structure MilestoneRec where
  milestone_id : String
  name : String
  description : String
  mtype : String
  deadline : Nat
  project_id : String
  status : String
  created_at : Nat
  deriving DecidableEq, Repr

/-- `createDefaultMilestones` (part_000 lines 600-639): builds the three
default milestone documents for a project and commits them in one batch.
The deadlines are `now + durationHours * f * 60*60*1000` for factors
`f = 0.2, 0.7, 1`; with `durationHours ∈ x7b24, 48x7d` these products are
exact integers, so the fractional factors are folded into the exact
millisecond constants `720000 = 0.2 * 3600000` and
`2520000 = 0.7 * 3600000`. -/
def createDefaultMilestones (projectId : String) (duration : Duration) (now : Nat)
    (freshId : Nat → String) : List MilestoneRec :=
  let durationHours := duration.hours
  [ { milestone_id := freshId 0
      name := "Idea Finalization"
      description := "Complete idea analysis and feature planning"
      mtype := "idea_submission"
      deadline := now + durationHours * 720000
      project_id := projectId
      status := "upcoming"
      created_at := now }
  , { milestone_id := freshId 1
      name := "Prototype Development"
      description := "Build working prototype with core features"
      mtype := "prototype"
      deadline := now + durationHours * 2520000
      project_id := projectId
      status := "upcoming"
      created_at := now }
  , { milestone_id := freshId 2
      name := "Final Presentation"
      description := "Complete project and prepare final presentation"
      mtype := "final_presentation"
      deadline := now + durationHours * 3600000
      project_id := projectId
      status := "upcoming"
      created_at := now } ]

/-- The fixed join-code alphabet (part_000 line 27). -/
def joinChars : List Char :=
  "ABCDEFGHIJKLMNOPQRSTUVWXYZ0123456789".toList

/-- `generateJoinCode` (part_000 lines 26-33): six iterations, each
appending `chars.charAt(Math.floor(Math.random() * chars.length))`.
`rand i` is the random oracle for iteration `i`; `Math.floor(Math.random()
* 36)` is a value in `[0, 36)`, modelled by `rand i % 36`. -/
def generateJoinCode (rand : Nat → Nat) : List Char :=
  (List.range 6).map fun i => joinChars.getD (rand i % 36) 'A'

/-- A project document as written by `createProject`
(part_000 lines 46-61).  Fields that are constant `null` in the source are
omitted from the model; `created_at` is epoch milliseconds. -/
structure ProjectDoc where
  id : String
  name : String
  duration : Duration
  created_by : String
  members : List String
  join_code : List Char
  demo_mode : Bool
  created_at : Nat
  status : String
  deriving DecidableEq, Repr

/-- `createProject` (part_000 lines 42-76): the primary project document
written by `setDoc(projectRef, project)`.  The background role and
milestone writes are modelled separately (`createDefaultMilestones`). -/
def createProject (rand : Nat → Nat) (name : String) (duration : Duration)
    (userId : String) (newId : String) (now : Nat) : ProjectDoc :=
  { id := newId
    name := name
    duration := duration
    created_by := userId
    members := [userId]
    join_code := generateJoinCode rand
    demo_mode := false
    created_at := now
    status := "planning" }

theorem joinChars_length : joinChars.length = 36 := by decide

/-- C7: For every project created with duration "24h", exactly three
default milestone records are produced, with deadlines at creation time
plus 4.8 hours (17280000 ms), plus 16.8 hours (60480000 ms), and plus
24 hours (86400000 ms) — 20%, 70% and 100% of the duration. -/
theorem createDefaultMilestones_24h_deadlines (projectId : String) (now : Nat)
    (freshId : Nat → String) :
    (createDefaultMilestones projectId Duration.h24 now freshId).length = 3 ∧
    (createDefaultMilestones projectId Duration.h24 now freshId).map MilestoneRec.deadline =
      [now + 17280000, now + 60480000, now + 86400000] := by
  refine ⟨rfl, ?_⟩
  simp [createDefaultMilestones, Duration.hours]

/-- C8: every project written by `createProject` has the creating user in
its member set, and its join code is exactly 6 characters long, each drawn
from the 36-character alphabet `A`–`Z`, `0`–`9`. -/
theorem createProject_members_and_join_code (rand : Nat → Nat) (name : String)
    (duration : Duration) (userId newId : String) (now : Nat) :
    userId ∈ (createProject rand name duration userId newId now).members ∧
    (createProject rand name duration userId newId now).join_code.length = 6 ∧
    ∀ c ∈ (createProject rand name duration userId newId now).join_code,
      c ∈ joinChars := by
  refine ⟨List.mem_singleton.mpr rfl, by simp [createProject, generateJoinCode], ?_⟩
  intro c hc
  simp only [createProject, generateJoinCode, List.mem_map, List.mem_range] at hc
  obtain ⟨i, _, rfl⟩ := hc
  have hlt : rand i % 36 < joinChars.length := by
    rw [joinChars_length]; exact Nat.mod_lt _ (by decide)
  rw [List.getD_eq_getElem joinChars 'A' hlt]
  exact List.getElem_mem hlt

/-- A JavaScript field value as it appears in a write payload.  `undef`
models the JavaScript `undefined` value, `nullV` models `null`. -/
inductive FieldValue
  | undef
  | nullV
  | str (s : String)
  | num (n : Int)
  | time (t : Nat)
  | boolV (b : Bool)
  deriving DecidableEq, Repr

/-- A document payload: an ordered list of field-name/value bindings. -/
abbrev Payload := List (String × FieldValue)

/-- JavaScript keyed overwrite — both the object-literal override
`x7b...obj, k: vx7d` and `Map.prototype.set`: if `k` is already a key its
value is replaced in place, otherwise the binding is appended. -/
def objSet (p : List (String × β)) (k : String) (v : β) : List (String × β) :=
  if p.any (fun kv => kv.1 == k) then
    p.map (fun kv => if kv.1 == k then (k, v) else kv)
  else p ++ [(k, v)]

/-- `Object.fromEntries(Object.entries(obj).filter(([_, value]) => value
!== undefined))` — the undefined-stripping idiom used by `createTask`,
`createTasks`, `updateTask`, `uploadResource`, `addActivity` and
`createNotification`. -/
def stripUndefined (p : Payload) : Payload :=
  p.filter (fun kv => !(kv.2 == FieldValue.undef))

/-- Whether a payload contains an undefined-valued field. -/
def payloadHasUndef (p : Payload) : Bool :=
  p.any (fun kv => kv.2 == FieldValue.undef)

/-- `createTask` (part_000 lines 232-247): the document written by
`setDoc(taskRef, cleanTask)`. -/
def createTaskPayload (task : Payload) (taskId : String) (now : Nat) : Payload :=
  stripUndefined (objSet (objSet task "task_id" (.str taskId)) "last_updated" (.time now))

/-- `createTasks` (part_000 lines 292-312): one cleaned document per
input task, each with its own generated id, committed in one batch. -/
def createTasksPayloads (tasks : List (Payload × String)) (now : Nat) : List Payload :=
  tasks.map fun ti => createTaskPayload ti.1 ti.2 now

/-- `updateTask` (part_000 lines 314-326): the cleaned update payload. -/
def updateTaskPayload (updates : Payload) (now : Nat) : Payload :=
  stripUndefined (objSet updates "last_updated" (.time now))

/-- `sendMessage` (part_000 lines 362-371): the document written by
`setDoc(msgRef, x7b...message, message_id, timestampx7d)`.  No
undefined-stripping is applied here. -/
def sendMessagePayload (message : Payload) (msgId : String) (now : Nat) : Payload :=
  objSet (objSet message "message_id" (.str msgId)) "timestamp" (.time now)

/-- `createMilestone` (part_000 lines 465-474): the document written by
`setDoc(milestoneRef, x7b...milestone, milestone_id, created_atx7d)`.  No
undefined-stripping is applied here. -/
def createMilestonePayload (milestone : Payload) (mid : String) (now : Nat) : Payload :=
  objSet (objSet milestone "milestone_id" (.str mid)) "created_at" (.time now)

/-- `uploadResource` (part_000 lines 642-657): cleaned payload. -/
def uploadResourcePayload (resource : Payload) (rid : String) (now : Nat) : Payload :=
  stripUndefined (objSet (objSet resource "resource_id" (.str rid)) "created_at" (.time now))

/-- `addActivity` (part_000 lines 692-706): cleaned payload. -/
def addActivityPayload (activity : Payload) (aid : String) (now : Nat) : Payload :=
  stripUndefined (objSet (objSet activity "activity_id" (.str aid)) "timestamp" (.time now))

/-- `createNotification` (part_000 lines 730-744): cleaned payload. -/
def createNotificationPayload (n : Payload) (nid : String) (now : Nat) : Payload :=
  stripUndefined (objSet (objSet n "notification_id" (.str nid)) "created_at" (.time now))

theorem stripUndefined_no_undef (p : Payload) :
    payloadHasUndef (stripUndefined p) = false := by
  simp only [payloadHasUndef, stripUndefined, List.any_eq_false]
  intro kv hkv
  simpa using (List.of_mem_filter hkv)

/-- C6 counterexample: `sendMessage` applies no undefined-stripping, so a
message carrying an undefined-valued field is written to the store with
that field still present. -/
theorem sendMessage_keeps_undefined_field :
    payloadHasUndef
      (sendMessagePayload [("project_id", FieldValue.str "p1"),
        ("attachment", FieldValue.undef)] "m1" 1000) = true := by
  decide

/-- C6 amended: the write operations built on the stripping idiom —
`createTask`, `createTasks`, `updateTask`, `uploadResource`,
`addActivity`, `createNotification` — never send an undefined-valued
field; `sendMessage` and `createMilestone` send their input fields
through unfiltered. -/
theorem strippingOps_no_undefined (task updates resource activity notif : Payload)
    (tasks : List (Payload × String)) (tid rid aid nid : String) (now : Nat) :
    payloadHasUndef (createTaskPayload task tid now) = false ∧
    ((createTasksPayloads tasks now).all fun q => !payloadHasUndef q) = true ∧
    payloadHasUndef (updateTaskPayload updates now) = false ∧
    payloadHasUndef (uploadResourcePayload resource rid now) = false ∧
    payloadHasUndef (addActivityPayload activity aid now) = false ∧
    payloadHasUndef (createNotificationPayload notif nid now) = false := by
  refine ⟨stripUndefined_no_undef _, ?_, stripUndefined_no_undef _,
    stripUndefined_no_undef _, stripUndefined_no_undef _, stripUndefined_no_undef _⟩
  simp only [List.all_eq_true, createTasksPayloads, List.mem_map]
  rintro q ⟨ti, _, rfl⟩
  simp [createTaskPayload, stripUndefined_no_undef]

/-! Subscription snapshots.  Each `subscribeTo*` maps every document of a
snapshot to its domain shape — normalizing a pending/absent server
timestamp to the current time via `data.f?.toDate?.() || new Date()` —
then applies the entity's fixed sort order and hands the full recomputed
list to the callback. -/

/-- Descending order by a numeric key: the JavaScript comparator
`(a, b) => key(b) - key(a)`. -/
def byDesc (f : α → Nat) (a b : α) : Prop := f b ≤ f a

/-- Ascending order by a numeric key: the JavaScript comparator
`(a, b) => key(a) - key(b)`. -/
def byAsc (f : α → Nat) (a b : α) : Prop := f a ≤ f b

instance (f : α → Nat) : DecidableRel (byDesc f) :=
  fun a b => Nat.decLe (f b) (f a)

instance (f : α → Nat) : DecidableRel (byAsc f) :=
  fun a b => Nat.decLe (f a) (f b)

instance (f : α → Nat) : IsTotal α (byDesc f) :=
  ⟨fun a b => Nat.le_total (f b) (f a)⟩

instance (f : α → Nat) : IsTotal α (byAsc f) :=
  ⟨fun a b => Nat.le_total (f a) (f b)⟩

instance (f : α → Nat) : IsTrans α (byDesc f) :=
  ⟨fun _ _ _ hab hbc => Nat.le_trans hbc hab⟩

instance (f : α → Nat) : IsTrans α (byAsc f) :=
  ⟨fun _ _ _ hab hbc => Nat.le_trans hab hbc⟩

/-- A task document as stored; `last_updated` is `none` while the server
timestamp is pending. -/
structure TaskDoc where
  task_id : String
  project_id : String
  title : String
  status : String
  assigned_to : Option String
  last_updated : Option Nat
  deriving DecidableEq, Repr

/-- A task in domain shape, timestamp normalized. -/
structure TaskRec where
  task_id : String
  project_id : String
  title : String
  status : String
  assigned_to : Option String
  last_updated : Nat
  deriving DecidableEq, Repr

/-- Document-to-domain mapping inside `subscribeToTasks`
(part_000 lines 340-346). -/
def mapTaskDoc (now : Nat) (d : TaskDoc) : TaskRec :=
  { task_id := d.task_id, project_id := d.project_id, title := d.title
    status := d.status, assigned_to := d.assigned_to
    last_updated := d.last_updated.getD now }

/-- `subscribeToTasks` snapshot handler (part_000 lines 339-348): map
every document, sort by `last_updated` descending. -/
def tasksSnapshot (now : Nat) (docs : List TaskDoc) : List TaskRec :=
  List.insertionSort (byDesc TaskRec.last_updated) (docs.map (mapTaskDoc now))

structure MessageDoc where
  message_id : String
  project_id : String
  sender_id : String
  content : String
  timestamp : Option Nat
  deriving DecidableEq, Repr

structure MessageRec where
  message_id : String
  project_id : String
  sender_id : String
  content : String
  timestamp : Nat
  deriving DecidableEq, Repr

/-- Document-to-domain mapping inside `subscribeToMessages`
(part_000 lines 380-385). -/
def mapMessageDoc (now : Nat) (d : MessageDoc) : MessageRec :=
  { message_id := d.message_id, project_id := d.project_id
    sender_id := d.sender_id, content := d.content
    timestamp := d.timestamp.getD now }

/-- `subscribeToMessages` snapshot handler (part_000 lines 379-388): map
every document, sort by `timestamp` ascending. -/
def messagesSnapshot (now : Nat) (docs : List MessageDoc) : List MessageRec :=
  List.insertionSort (byAsc MessageRec.timestamp) (docs.map (mapMessageDoc now))

/-- A milestone document as stored; `deadline` and `created_at` are
`none` while pending. -/
structure MilestoneDoc where
  milestone_id : String
  name : String
  description : String
  mtype : String
  project_id : String
  status : String
  deadline : Option Nat
  created_at : Option Nat
  deriving DecidableEq, Repr

/-- Document-to-domain mapping inside `subscribeToMilestones`
(part_000 lines 493-499). -/
def mapMilestoneDoc (now : Nat) (d : MilestoneDoc) : MilestoneRec :=
  { milestone_id := d.milestone_id, name := d.name
    description := d.description, mtype := d.mtype
    project_id := d.project_id, status := d.status
    deadline := d.deadline.getD now, created_at := d.created_at.getD now }

/-- `subscribeToMilestones` snapshot handler (part_000 lines 492-502):
map every document, sort by `deadline` ascending. -/
def milestonesSnapshot (now : Nat) (docs : List MilestoneDoc) : List MilestoneRec :=
  List.insertionSort (byAsc MilestoneRec.deadline) (docs.map (mapMilestoneDoc now))

structure ActivityDoc where
  activity_id : String
  user_id : String
  description : String
  timestamp : Option Nat
  deriving DecidableEq, Repr

structure ActivityRec where
  activity_id : String
  user_id : String
  description : String
  timestamp : Nat
  deriving DecidableEq, Repr

/-- Document-to-domain mapping inside `subscribeToActivities`
(part_000 lines 716-719). -/
def mapActivityDoc (now : Nat) (d : ActivityDoc) : ActivityRec :=
  { activity_id := d.activity_id, user_id := d.user_id
    description := d.description, timestamp := d.timestamp.getD now }

/-- `subscribeToActivities` snapshot handler (part_000 lines 715-722):
map every document, sort by `timestamp` descending, keep the first 50. -/
def activitiesSnapshot (now : Nat) (docs : List ActivityDoc) : List ActivityRec :=
  (List.insertionSort (byDesc ActivityRec.timestamp) (docs.map (mapActivityDoc now))).take 50

structure NotificationDoc where
  notification_id : String
  title : String
  read : Bool
  created_at : Option Nat
  deriving DecidableEq, Repr

structure NotificationRec where
  notification_id : String
  title : String
  read : Bool
  created_at : Nat
  deriving DecidableEq, Repr

/-- Document-to-domain mapping inside `subscribeToNotifications`
(part_000 lines 755-758). -/
def mapNotificationDoc (now : Nat) (d : NotificationDoc) : NotificationRec :=
  { notification_id := d.notification_id, title := d.title
    read := d.read, created_at := d.created_at.getD now }

/-- `subscribeToNotifications` snapshot handler (part_000 lines 754-761):
map every document, sort by `created_at` descending. -/
def notificationsSnapshot (now : Nat) (docs : List NotificationDoc) : List NotificationRec :=
  List.insertionSort (byDesc NotificationRec.created_at) (docs.map (mapNotificationDoc now))

/-- C4: every delivered snapshot is the full recomputed sequence in the
entity's fixed order — tasks by last-updated descending, messages by
timestamp ascending, milestones by deadline ascending, activities by
timestamp descending truncated to the 50 most recent, notifications by
creation time descending. -/
theorem snapshot_fixed_order (now : Nat) (tds : List TaskDoc) (mds : List MessageDoc)
    (lds : List MilestoneDoc) (ads : List ActivityDoc) (nds : List NotificationDoc) :
    List.Perm (tasksSnapshot now tds) (tds.map (mapTaskDoc now)) ∧
    List.Sorted (byDesc TaskRec.last_updated) (tasksSnapshot now tds) ∧
    List.Perm (messagesSnapshot now mds) (mds.map (mapMessageDoc now)) ∧
    List.Sorted (byAsc MessageRec.timestamp) (messagesSnapshot now mds) ∧
    List.Perm (milestonesSnapshot now lds) (lds.map (mapMilestoneDoc now)) ∧
    List.Sorted (byAsc MilestoneRec.deadline) (milestonesSnapshot now lds) ∧
    activitiesSnapshot now ads =
      (List.insertionSort (byDesc ActivityRec.timestamp) (ads.map (mapActivityDoc now))).take 50 ∧
    List.Sorted (byDesc ActivityRec.timestamp) (activitiesSnapshot now ads) ∧
    (activitiesSnapshot now ads).length = min 50 ads.length ∧
    List.Perm (notificationsSnapshot now nds) (nds.map (mapNotificationDoc now)) ∧
    List.Sorted (byDesc NotificationRec.created_at) (notificationsSnapshot now nds) := by
  refine ⟨List.perm_insertionSort _ _, List.sorted_insertionSort _ _,
    List.perm_insertionSort _ _, List.sorted_insertionSort _ _,
    List.perm_insertionSort _ _, List.sorted_insertionSort _ _,
    rfl, ?_, ?_, List.perm_insertionSort _ _, List.sorted_insertionSort _ _⟩
  · exact List.Pairwise.sublist (List.take_sublist _ _) (List.sorted_insertionSort _ _)
  · simp [activitiesSnapshot]

/-! Stream-error behavior.  Each `onSnapshot` call optionally registers
an error observer; the model transcribes each subscription's error path
as the list of actions it performs: invoking the caller's callback with
some list, or reopening the change stream.  No error path in the source
contains a new `onSnapshot` call, and four of the eight subscriptions
register no error observer at all. -/

/-- An action a subscription's error path may perform. -/
inductive ErrAction (ε : Type)
  | emit (xs : List ε)
  | reopenStream
  deriving DecidableEq, Repr

/-- A user-profile document, as delivered to member subscriptions. -/
structure ProjectMember where
  user_id : String
  name : String
  deriving DecidableEq, Repr

structure ScheduleEventRec where
  event_id : String
  title : String
  start_time : Nat
  end_time : Nat
  deriving DecidableEq, Repr

structure ResourceRec where
  resource_id : String
  name : String
  created_at : Nat
  deriving DecidableEq, Repr

/-- `subscribeToTasks` error observer (part_000 lines 350-353):
`callback([])`, nothing else. -/
def tasksOnStreamError : List (ErrAction TaskRec) := [ErrAction.emit []]

/-- `subscribeToMessages` error observer (part_000 lines 390-393):
`callback([])`, nothing else. -/
def messagesOnStreamError : List (ErrAction MessageRec) := [ErrAction.emit []]

/-- `subscribeToMilestones` error observer (part_000 lines 504-507):
`callback([])`, nothing else. -/
def milestonesOnStreamError : List (ErrAction MilestoneRec) := [ErrAction.emit []]

/-- `subscribeToScheduleEvents` error observer (part_000 lines 562-565):
`callback([])`, nothing else. -/
def scheduleEventsOnStreamError : List (ErrAction ScheduleEventRec) := [ErrAction.emit []]

/-- `subscribeToProjectMembers` per-member error observer
(part_000 lines 450-453): logs the error only; the callback is never
invoked. -/
def membersOnStreamError : List (ErrAction ProjectMember) := []

/-- `subscribeToResources` (part_000 line 678) registers no error
observer on its `onSnapshot` call: a stream error performs no action. -/
def resourcesOnStreamError : List (ErrAction ResourceRec) := []

/-- `subscribeToActivities` (part_000 line 715) registers no error
observer on its `onSnapshot` call: a stream error performs no action. -/
def activitiesOnStreamError : List (ErrAction ActivityRec) := []

/-- `subscribeToNotifications` (part_000 line 754) registers no error
observer on its `onSnapshot` call: a stream error performs no action. -/
def notificationsOnStreamError : List (ErrAction NotificationRec) := []

/-- C3 counterexample: on a stream error, `subscribeToActivities` does
not invoke the caller's callback at all — its `onSnapshot` call registers
no error observer — refuting the claim that every subscription invokes
the callback exactly once with an empty sequence. -/
theorem activities_stream_error_no_callback :
    activitiesOnStreamError ≠ [ErrAction.emit []] := by
  decide

/-- C3 amended: on a stream error, the tasks, messages, milestones and
schedule-event subscriptions invoke the callback exactly once with an
empty sequence; the members, resources, activities and notifications
subscriptions do not invoke the callback; no subscription's error path
reopens its stream. -/
theorem subscribe_stream_error_behavior :
    tasksOnStreamError = [ErrAction.emit []] ∧
    messagesOnStreamError = [ErrAction.emit []] ∧
    milestonesOnStreamError = [ErrAction.emit []] ∧
    scheduleEventsOnStreamError = [ErrAction.emit []] ∧
    membersOnStreamError = [] ∧
    resourcesOnStreamError = [] ∧
    activitiesOnStreamError = [] ∧
    notificationsOnStreamError = [] ∧
    ErrAction.reopenStream ∉ tasksOnStreamError ∧
    ErrAction.reopenStream ∉ messagesOnStreamError ∧
    ErrAction.reopenStream ∉ milestonesOnStreamError ∧
    ErrAction.reopenStream ∉ scheduleEventsOnStreamError ∧
    ErrAction.reopenStream ∉ membersOnStreamError ∧
    ErrAction.reopenStream ∉ resourcesOnStreamError ∧
    ErrAction.reopenStream ∉ activitiesOnStreamError ∧
    ErrAction.reopenStream ∉ notificationsOnStreamError := by
  refine ⟨rfl, rfl, rfl, rfl, rfl, rfl, rfl, rfl, ?_, ?_, ?_, ?_, ?_, ?_, ?_, ?_⟩ <;>
    decide

/-! One-shot fetches, bounded wait, and compound batched writes. -/

/-- How the store answers a one-shot call: the answer arrives at time
`t` (epoch-relative milliseconds), the call rejects at time `t`, or the
store never responds. -/
inductive QueryOutcome
  | arrives (t : Nat)
  | failsAt (t : Nat)
  | never
  deriving DecidableEq, Repr

/-- The settled state of an asynchronous operation: resolved with a value
at a time, or rejected at a time. -/
inductive FetchResult (α : Type)
  | settled (v : α) (t : Nat)
  | rejected (t : Nat)
  deriving DecidableEq, Repr

def FetchResult.isRejected : FetchResult α → Bool
  | .rejected _ => true
  | .settled _ _ => false

def FetchResult.resolveTime : FetchResult α → Nat
  | .settled _ t => t
  | .rejected t => t

/-- `Promise.race([promise, timer(ms, fallback)])` — the racing half of
`withTimeout` (part_000 line 36).  `v` is the value the store call would
deliver if it arrives in time. -/
def raceTimer (v : α) (qo : QueryOutcome) (ms : Nat) (fallback : α) : FetchResult α :=
  match qo with
  | .never => .settled fallback ms
  | .arrives t => if t < ms then .settled v t else .settled fallback ms
  | .failsAt t => if t < ms then .rejected t else .settled fallback ms

/-- `.catch(() => fallback)` (part_000 lines 36-38). -/
def catchWith (r : FetchResult α) (fallback : α) : FetchResult α :=
  match r with
  | .rejected t => .settled fallback t
  | .settled v t => .settled v t

/-- `withTimeout` (part_000 lines 35-39): race the store call against an
`ms`-millisecond timer resolving to `fallback`, and convert any rejection
to `fallback` as well. -/
def withTimeout (v : α) (qo : QueryOutcome) (ms : Nat) (fallback : α) : FetchResult α :=
  catchWith (raceTimer v qo ms fallback) fallback

/-- A `project_roles` document (part_000 lines 66-70 and 131-135). -/
structure RoleDoc where
  project_id : String
  user_id : String
  role : String
  deriving DecidableEq, Repr

/-- The remote document store, restricted to the collections the
compound operations touch.  `roles` is keyed by the composite id
`projectId_userId`. -/
structure Store where
  projects : List ProjectDoc
  roles : List (String × RoleDoc)
  tasks : List TaskDoc
  messages : List MessageDoc
  deriving DecidableEq, Repr

/-- The composite `project_roles` document key (part_000 lines 66, 131). -/
def roleKey (projectId userId : String) : String :=
  projectId ++ "_" ++ userId

/-- Firestore `arrayUnion` as applied to a member-id array: adds the
element only if not already present. -/
def arrayUnion (xs : List String) (x : String) : List String :=
  if x ∈ xs then xs else xs ++ [x]

/-- `getProject` (part_000 lines 78-92): `withTimeout(getDoc(...), 3000,
null)`, then the missing-document check; the surrounding try/catch turns
any thrown error — including an unavailable database adapter,
`dbOk = false` — into `null`.  `stored` is the project document the store
holds at that id, if any; timestamps in the model are already normalized
milliseconds, so the `created_at` conversion is the identity. -/
def getProject (stored : Option ProjectDoc) (qo : QueryOutcome) (dbOk : Bool) :
    FetchResult (Option ProjectDoc) :=
  if !dbOk then .settled none 0
  else
    match withTimeout stored qo 3000 none with
    | .settled d t => .settled d t
    | .rejected t => .settled none t

/-- `getUserProjects` (part_000 lines 94-115): membership query with a
3-second bound and fallback `x7bdocs: []x7d`, mapped and sorted by
`created_at` descending; the surrounding try/catch turns any thrown error
into the empty list. -/
def getUserProjects (projects : List ProjectDoc) (userId : String) (qo : QueryOutcome)
    (dbOk : Bool) : FetchResult (List ProjectDoc) :=
  if !dbOk then .settled [] 0
  else
    match withTimeout (projects.filter fun p => p.members.contains userId) qo 3000 [] with
    | .settled ds t => .settled (List.insertionSort (byDesc ProjectDoc.created_at) ds) t
    | .rejected t => .settled [] t

/-- The join-code lookup inside `joinProjectByCode` (part_000 lines
120-122): `withTimeout(getDocs(query(join_code == code)), 5000,
x7bempty: true, docs: []x7d)`. -/
def joinCodeLookup (projects : List ProjectDoc) (code : List Char) (qo : QueryOutcome) :
    FetchResult (List ProjectDoc) :=
  withTimeout (projects.filter fun p => p.join_code == code) qo 5000 []

/-- `joinProjectByCode` (part_000 lines 117-144): look the project up by
join code with a 5-second bound; `null` when nothing matches; otherwise
one batch that adds the user to `docs[0]`'s member array (`arrayUnion`)
and sets the `member` role document, committed atomically
(`commitOk = false` models a failed commit, which changes nothing and is
rethrown by the catch clause, as is an unavailable database adapter). -/
def joinProjectByCode (store : Store) (code : List Char) (userId : String)
    (qo : QueryOutcome) (dbOk commitOk : Bool) : Store × FetchResult (Option String) :=
  if !dbOk then (store, .rejected 0)
  else
    match joinCodeLookup store.projects code qo with
    | .rejected t => (store, .rejected t)
    | .settled docs t =>
      match docs with
      | [] => (store, .settled none t)
      | p :: _ =>
        if commitOk then
          ({ store with
              projects := store.projects.map fun q =>
                if q.id == p.id then { q with members := arrayUnion q.members userId }
                else q
              roles := objSet store.roles (roleKey p.id userId)
                { project_id := p.id, user_id := userId, role := "member" } },
            .settled (some p.id) t)
        else (store, .rejected t)

/-- One delete operation inside a write batch. -/
inductive BatchOp
  | delTask (id : String)
  | delMessage (id : String)
  | delProject (id : String)
  deriving DecidableEq, Repr

/-- Apply one batched delete to the store. -/
def applyOp (store : Store) : BatchOp → Store
  | .delTask id => { store with tasks := store.tasks.filter fun t => !(t.task_id == id) }
  | .delMessage id =>
      { store with messages := store.messages.filter fun m => !(m.message_id == id) }
  | .delProject id =>
      { store with projects := store.projects.filter fun p => !(p.id == id) }

/-- `batch.commit()`: apply every batched operation. -/
def applyBatch (store : Store) (ops : List BatchOp) : Store :=
  ops.foldl applyOp store

/-- `deleteProject` (part_000 lines 171-201): collect delete operations
for every task and every message whose `project_id` matches — each
sub-collection query wrapped in its own try/catch, so a failed query
(`tasksQueryOk` / `messagesQueryOk` false) contributes nothing — then add
the project-document delete and commit the batch.  Returns the resulting
store and the batched operation list. -/
def deleteProject (store : Store) (projectId : String)
    (tasksQueryOk messagesQueryOk : Bool) : Store × List BatchOp :=
  let taskOps := if tasksQueryOk then
      (store.tasks.filter fun t => t.project_id == projectId).map fun t =>
        BatchOp.delTask t.task_id
    else []
  let msgOps := if messagesQueryOk then
      (store.messages.filter fun m => m.project_id == projectId).map fun m =>
        BatchOp.delMessage m.message_id
    else []
  let ops := taskOps ++ msgOps ++ [BatchOp.delProject projectId]
  (applyBatch store ops, ops)

theorem withTimeout_isRejected (v : α) (qo : QueryOutcome) (ms : Nat) (fb : α) :
    (withTimeout v qo ms fb).isRejected = false := by
  cases qo with
  | never => rfl
  | arrives t =>
    by_cases h : t < ms <;>
      simp [withTimeout, raceTimer, catchWith, FetchResult.isRejected, h]
  | failsAt t =>
    by_cases h : t < ms <;>
      simp [withTimeout, raceTimer, catchWith, FetchResult.isRejected, h]

theorem withTimeout_resolveTime_le (v : α) (qo : QueryOutcome) (ms : Nat) (fb : α) :
    (withTimeout v qo ms fb).resolveTime ≤ ms := by
  cases qo with
  | never =>
    simp [withTimeout, raceTimer, catchWith, FetchResult.resolveTime]
  | arrives t =>
    by_cases h : t < ms <;>
      simp [withTimeout, raceTimer, catchWith, FetchResult.resolveTime, h, Nat.le_of_lt]
  | failsAt t =>
    by_cases h : t < ms <;>
      simp [withTimeout, raceTimer, catchWith, FetchResult.resolveTime, h, Nat.le_of_lt]

/-- C2: each one-shot fetch against a store that never responds settles
at exactly its bound (3000 ms for `getProject` and `getUserProjects`,
5000 ms for the join-code lookup) with its documented fallback (`none`,
`[]`, empty snapshot); no outcome — timeout, late arrival, adapter
failure or thrown store error — makes a fetch reject or exceed its
bound; and a store error thrown before the bound settles to the same
fallback at the error's time. -/
theorem oneShotFetch_bounded_fallback (stored : Option ProjectDoc)
    (projects : List ProjectDoc) (userId : String) (code : List Char)
    (qo : QueryOutcome) (dbOk : Bool) :
    getProject stored QueryOutcome.never true = FetchResult.settled none 3000 ∧
    getUserProjects projects userId QueryOutcome.never true = FetchResult.settled [] 3000 ∧
    joinCodeLookup projects code QueryOutcome.never = FetchResult.settled [] 5000 ∧
    (getProject stored qo dbOk).isRejected = false ∧
    (getProject stored qo dbOk).resolveTime ≤ 3000 ∧
    (getUserProjects projects userId qo dbOk).isRejected = false ∧
    (getUserProjects projects userId qo dbOk).resolveTime ≤ 3000 ∧
    (joinCodeLookup projects code qo).isRejected = false ∧
    (joinCodeLookup projects code qo).resolveTime ≤ 5000 ∧
    (∀ t, t < 3000 →
      getProject stored (QueryOutcome.failsAt t) true = FetchResult.settled none t) ∧
    (∀ t, t < 3000 →
      getUserProjects projects userId (QueryOutcome.failsAt t) true =
        FetchResult.settled [] t) ∧
    (∀ t, t < 5000 →
      joinCodeLookup projects code (QueryOutcome.failsAt t) = FetchResult.settled [] t) := by
  refine ⟨rfl, rfl, rfl, ?_, ?_, ?_, ?_, withTimeout_isRejected _ _ _ _,
    withTimeout_resolveTime_le _ _ _ _, ?_, ?_, ?_⟩
  · cases dbOk with
    | false => rfl
    | true =>
      unfold getProject
      cases h : withTimeout stored qo 3000 (none : Option ProjectDoc) <;>
        simp [h, FetchResult.isRejected]
  · cases dbOk with
    | false => exact Nat.zero_le _
    | true =>
      unfold getProject
      have hle := withTimeout_resolveTime_le stored qo 3000 (none : Option ProjectDoc)
      cases h : withTimeout stored qo 3000 (none : Option ProjectDoc) <;>
        rw [h] at hle <;> simpa using hle
  · cases dbOk with
    | false => rfl
    | true =>
      unfold getUserProjects
      cases h : withTimeout (projects.filter fun p => p.members.contains userId) qo 3000
          ([] : List ProjectDoc) <;> simp [h, FetchResult.isRejected]
  · cases dbOk with
    | false => exact Nat.zero_le _
    | true =>
      unfold getUserProjects
      have hle := withTimeout_resolveTime_le
        (projects.filter fun p => p.members.contains userId) qo 3000 ([] : List ProjectDoc)
      cases h : withTimeout (projects.filter fun p => p.members.contains userId) qo 3000
          ([] : List ProjectDoc) <;> rw [h] at hle <;> simpa using hle
  · intro t ht
    simp [getProject, withTimeout, raceTimer, catchWith, ht]
  · intro t ht
    simp [getUserProjects, withTimeout, raceTimer, catchWith, ht]
  · intro t ht
    simp [joinCodeLookup, withTimeout, raceTimer, catchWith, ht]

/-- Witness for the hypotheses of `oneShotFetch_bounded_fallback`. -/
theorem oneShotFetch_bounded_fallback_witness :
    getProject none QueryOutcome.never true = FetchResult.settled none 3000 ∧
    getProject none (QueryOutcome.failsAt 100) true = FetchResult.settled none 100 ∧
    joinCodeLookup [] ['A'] (QueryOutcome.failsAt 4999) = FetchResult.settled [] 4999 := by
  have h := oneShotFetch_bounded_fallback none [] "u1" ['A'] QueryOutcome.never true
  refine ⟨h.1, ?_, ?_⟩
  · exact h.2.2.2.2.2.2.2.2.2.1 100 (by decide)
  · exact h.2.2.2.2.2.2.2.2.2.2.2 4999 (by decide)

theorem mem_objSet_self (m : List (String × β)) (k : String) (v : β) :
    (k, v) ∈ objSet m k v := by
  unfold objSet
  split
  case isTrue h =>
    obtain ⟨kv0, hmem, hkey⟩ := List.any_eq_true.mp h
    exact List.mem_map.mpr ⟨kv0, hmem, by rw [if_pos hkey]⟩
  case isFalse h =>
    exact List.mem_append_right _ (List.mem_singleton.mpr rfl)

theorem mem_arrayUnion_self (xs : List String) (x : String) : x ∈ arrayUnion xs x := by
  unfold arrayUnion
  split
  case isTrue h => exact h
  case isFalse h => exact List.mem_append_right _ (List.mem_singleton.mpr rfl)

/-- C1: when the join-code query answers before the 5-second bound, a
code matching no project leaves the store unchanged and resolves to
`none`; a code matching at least one project targets the first match
`p`: a failed batch commit changes neither document (the store is
returned unchanged and the error is rethrown), and a successful commit
resolves to `p`'s id with the user in `p`'s member array and the
`member` role document present. -/
theorem joinProjectByCode_atomic (store : Store) (code : List Char) (userId : String)
    (t : Nat) (ht : t < 5000) :
    ((store.projects.filter fun p => p.join_code == code) = [] →
      ∀ commitOk, joinProjectByCode store code userId (QueryOutcome.arrives t) true commitOk =
        (store, FetchResult.settled none t)) ∧
    ∀ p rest, (store.projects.filter fun q => q.join_code == code) = p :: rest →
      joinProjectByCode store code userId (QueryOutcome.arrives t) true false =
        (store, FetchResult.rejected t) ∧
      (joinProjectByCode store code userId (QueryOutcome.arrives t) true true).2 =
        FetchResult.settled (some p.id) t ∧
      (∃ q ∈ (joinProjectByCode store code userId (QueryOutcome.arrives t) true true).1.projects,
        q.id = p.id ∧ userId ∈ q.members) ∧
      (roleKey p.id userId, ⟨p.id, userId, "member"⟩) ∈
        (joinProjectByCode store code userId (QueryOutcome.arrives t) true true).1.roles := by
  have hlook : joinCodeLookup store.projects code (QueryOutcome.arrives t) =
      FetchResult.settled (store.projects.filter fun p => p.join_code == code) t := by
    simp [joinCodeLookup, withTimeout, raceTimer, catchWith, ht]
  constructor
  · intro hnone commitOk
    simp [joinProjectByCode, hlook, hnone]
  · intro p rest hmatch
    have hp : p ∈ store.projects :=
      List.mem_of_mem_filter (hmatch ▸ List.mem_cons_self p rest)
    refine ⟨by simp [joinProjectByCode, hlook, hmatch], ?_, ?_, ?_⟩
    · simp [joinProjectByCode, hlook, hmatch]
    · refine ⟨{ p with members := arrayUnion p.members userId }, ?_, rfl, ?_⟩
      · simp only [joinProjectByCode, hlook, hmatch, Bool.not_true]
        simp only [if_neg (by decide : ¬ (false = true))]
        exact List.mem_map.mpr ⟨p, hp, by rw [if_pos (by simp)]⟩
      · exact mem_arrayUnion_self p.members userId
    · simp only [joinProjectByCode, hlook, hmatch, Bool.not_true]
      simp only [if_neg (by decide : ¬ (false = true))]
      exact mem_objSet_self store.roles (roleKey p.id userId) _

/-- A concrete project for the `joinProjectByCode_atomic` witness. -/
def joinWitnessProject : ProjectDoc where
  id := "p1"
  name := "demo"
  duration := Duration.h24
  created_by := "u1"
  members := ["u1"]
  join_code := ['A']
  demo_mode := false
  created_at := 0
  status := "planning"

/-- A concrete store for the `joinProjectByCode_atomic` witness. -/
def joinWitnessStore : Store where
  projects := [joinWitnessProject]
  roles := []
  tasks := []
  messages := []

/-- Witness for the hypotheses of `joinProjectByCode_atomic`. -/
theorem joinProjectByCode_atomic_witness :
    joinProjectByCode joinWitnessStore ['A'] "u2" (QueryOutcome.arrives 100) true false =
      (joinWitnessStore, FetchResult.rejected 100) ∧
    ("p1_u2", ⟨"p1", "u2", "member"⟩) ∈
      (joinProjectByCode joinWitnessStore ['A'] "u2"
        (QueryOutcome.arrives 100) true true).1.roles := by
  have h := (joinProjectByCode_atomic joinWitnessStore ['A'] "u2" 100 (by decide)).2
    joinWitnessProject [] (by decide)
  refine ⟨h.1, ?_⟩
  have hrole := h.2.2.2
  simpa [roleKey, joinWitnessProject] using hrole

theorem mem_applyBatch_tasks (ops : List BatchOp) (s : Store) (t : TaskDoc)
    (h : t ∈ (applyBatch s ops).tasks) :
    t ∈ s.tasks ∧ ∀ id, BatchOp.delTask id ∈ ops → t.task_id ≠ id := by
  induction ops generalizing s with
  | nil => exact ⟨h, by simp⟩
  | cons op tl ih =>
    obtain ⟨hmem, hids⟩ := ih (applyOp s op) h
    cases op with
    | delTask id0 =>
      refine ⟨List.mem_of_mem_filter hmem, ?_⟩
      intro id hid
      rcases List.mem_cons.mp hid with heq | htl
      · cases heq
        simpa using List.of_mem_filter hmem
      · exact hids id htl
    | delMessage id0 =>
      refine ⟨hmem, ?_⟩
      intro id hid
      rcases List.mem_cons.mp hid with heq | htl
      · cases heq
      · exact hids id htl
    | delProject id0 =>
      refine ⟨hmem, ?_⟩
      intro id hid
      rcases List.mem_cons.mp hid with heq | htl
      · cases heq
      · exact hids id htl

theorem mem_applyBatch_messages (ops : List BatchOp) (s : Store) (m : MessageDoc)
    (h : m ∈ (applyBatch s ops).messages) :
    m ∈ s.messages ∧ ∀ id, BatchOp.delMessage id ∈ ops → m.message_id ≠ id := by
  induction ops generalizing s with
  | nil => exact ⟨h, by simp⟩
  | cons op tl ih =>
    obtain ⟨hmem, hids⟩ := ih (applyOp s op) h
    cases op with
    | delMessage id0 =>
      refine ⟨List.mem_of_mem_filter hmem, ?_⟩
      intro id hid
      rcases List.mem_cons.mp hid with heq | htl
      · cases heq
        simpa using List.of_mem_filter hmem
      · exact hids id htl
    | delTask id0 =>
      refine ⟨hmem, ?_⟩
      intro id hid
      rcases List.mem_cons.mp hid with heq | htl
      · cases heq
      · exact hids id htl
    | delProject id0 =>
      refine ⟨hmem, ?_⟩
      intro id hid
      rcases List.mem_cons.mp hid with heq | htl
      · cases heq
      · exact hids id htl

theorem mem_applyBatch_projects (ops : List BatchOp) (s : Store) (p : ProjectDoc)
    (h : p ∈ (applyBatch s ops).projects) :
    p ∈ s.projects ∧ ∀ id, BatchOp.delProject id ∈ ops → p.id ≠ id := by
  induction ops generalizing s with
  | nil => exact ⟨h, by simp⟩
  | cons op tl ih =>
    obtain ⟨hmem, hids⟩ := ih (applyOp s op) h
    cases op with
    | delProject id0 =>
      refine ⟨List.mem_of_mem_filter hmem, ?_⟩
      intro id hid
      rcases List.mem_cons.mp hid with heq | htl
      · cases heq
        simpa using List.of_mem_filter hmem
      · exact hids id htl
    | delTask id0 =>
      refine ⟨hmem, ?_⟩
      intro id hid
      rcases List.mem_cons.mp hid with heq | htl
      · cases heq
      · exact hids id htl
    | delMessage id0 =>
      refine ⟨hmem, ?_⟩
      intro id hid
      rcases List.mem_cons.mp hid with heq | htl
      · cases heq
      · exact hids id htl

/-- C5: after `deleteProject`, the project document is gone regardless
of whether either sub-collection query failed; when the task query
succeeded no task of the project remains, and when the message query
succeeded no message of the project remains; and the committed batch
performs the project-document delete last, after every sub-collection
delete. -/
theorem deleteProject_spec (store : Store) (projectId : String)
    (tasksQueryOk messagesQueryOk : Bool) :
    (∀ p ∈ (deleteProject store projectId tasksQueryOk messagesQueryOk).1.projects,
      p.id ≠ projectId) ∧
    (tasksQueryOk = true →
      ∀ t ∈ (deleteProject store projectId tasksQueryOk messagesQueryOk).1.tasks,
        t.project_id ≠ projectId) ∧
    (messagesQueryOk = true →
      ∀ m ∈ (deleteProject store projectId tasksQueryOk messagesQueryOk).1.messages,
        m.project_id ≠ projectId) ∧
    (∃ pre, (deleteProject store projectId tasksQueryOk messagesQueryOk).2 =
        pre ++ [BatchOp.delProject projectId] ∧
      ∀ op ∈ pre, ∀ q, op ≠ BatchOp.delProject q) := by
  refine ⟨?_, ?_, ?_, ?_⟩
  · intro p hp
    have hops := mem_applyBatch_projects _ store p hp
    refine hops.2 projectId ?_
    simp [deleteProject]
  · intro htq t ht
    subst htq
    have hops := mem_applyBatch_tasks _ store t ht
    intro hpid
    have htmem : t ∈ store.tasks.filter fun u => u.project_id == projectId :=
      List.mem_filter.mpr ⟨hops.1, by simp [hpid]⟩
    have hopmem : BatchOp.delTask t.task_id ∈
        (deleteProject store projectId true messagesQueryOk).2 := by
      simp only [deleteProject, if_pos rfl, List.mem_append]
      exact Or.inl (Or.inl (List.mem_map.mpr ⟨t, htmem, rfl⟩))
    exact hops.2 t.task_id hopmem rfl
  · intro hmq m hm
    subst hmq
    have hops := mem_applyBatch_messages _ store m hm
    intro hpid
    have hmmem : m ∈ store.messages.filter fun u => u.project_id == projectId :=
      List.mem_filter.mpr ⟨hops.1, by simp [hpid]⟩
    have hopmem : BatchOp.delMessage m.message_id ∈
        (deleteProject store projectId tasksQueryOk true).2 := by
      simp only [deleteProject, if_pos rfl, List.mem_append]
      exact Or.inl (Or.inr (List.mem_map.mpr ⟨m, hmmem, rfl⟩))
    exact hops.2 m.message_id hopmem rfl
  · refine ⟨(if tasksQueryOk then
        (store.tasks.filter fun t => t.project_id == projectId).map fun t =>
          BatchOp.delTask t.task_id
      else []) ++
      (if messagesQueryOk then
        (store.messages.filter fun m => m.project_id == projectId).map fun m =>
          BatchOp.delMessage m.message_id
      else []), ?_, ?_⟩
    · simp [deleteProject]
    · intro op hop q
      rcases List.mem_append.mp hop with hta | hma
      · rcases tasksQueryOk with _ | _
        · simp at hta
        · obtain ⟨t, -, rfl⟩ := by simpa using hta
          simp
      · rcases messagesQueryOk with _ | _
        · simp at hma
        · obtain ⟨m, -, rfl⟩ := by simpa using hma
          simp

/-- A concrete store for the `deleteProject_spec` witness. -/
def deleteWitnessStore : Store where
  projects := [joinWitnessProject]
  roles := []
  tasks := [⟨"t1", "p1", "x", "ToDo", none, some 5⟩]
  messages := [⟨"m1", "p1", "u1", "hello", some 7⟩]

/-- Witness for the hypotheses of `deleteProject_spec`. -/
theorem deleteProject_spec_witness :
    (∀ p ∈ (deleteProject deleteWitnessStore "p1" true true).1.projects, p.id ≠ "p1") ∧
    (∀ t ∈ (deleteProject deleteWitnessStore "p1" true true).1.tasks,
      t.project_id ≠ "p1") ∧
    (∀ m ∈ (deleteProject deleteWitnessStore "p1" true true).1.messages,
      m.project_id ≠ "p1") := by
  have h := deleteProject_spec deleteWitnessStore "p1" true true
  exact ⟨h.1, h.2.1 rfl, h.2.2.1 rfl⟩

/-! Optimistic update discipline of the project-page view controller
(`src/app/project/[id]/page_simple.tsx`). -/

/-- `handleUpdateTaskStatus` (page_simple.tsx lines 209-220): apply the
new status to local state immediately; on remote failure, look the
original task up in the pre-update closure state `tasks` and reapply its
status; on success keep the optimistic value.  Returns (state right
after the optimistic write, state after the remote write settles). -/
def handleUpdateTaskStatus (tasks : List TaskRec) (taskId : String) (status : String)
    (remoteOk : Bool) : List TaskRec × List TaskRec :=
  let optimistic := tasks.map fun t =>
    if t.task_id == taskId then { t with status := status } else t
  let final :=
    if remoteOk then optimistic
    else
      match tasks.find? fun t => t.task_id == taskId with
      | some originalTask =>
          optimistic.map fun t =>
            if t.task_id == taskId then { t with status := originalTask.status } else t
      | none => optimistic
  (optimistic, final)

/-- C9: for a task in local state with status "ToDo", changing its status
to "InProgress" makes every local copy of that task "InProgress"
immediately; if the remote write fails the task's local status is
restored to "ToDo", and if it succeeds the optimistic state is kept
unchanged. -/
theorem handleUpdateTaskStatus_optimistic (tasks : List TaskRec) (taskId : String)
    (t0 : TaskRec) (hfind : tasks.find? (fun t => t.task_id == taskId) = some t0)
    (hstatus : t0.status = "ToDo") :
    (∀ t ∈ (handleUpdateTaskStatus tasks taskId "InProgress" true).1,
      t.task_id = taskId → t.status = "InProgress") ∧
    (handleUpdateTaskStatus tasks taskId "InProgress" true).2 =
      (handleUpdateTaskStatus tasks taskId "InProgress" true).1 ∧
    (∀ t ∈ (handleUpdateTaskStatus tasks taskId "InProgress" false).2,
      t.task_id = taskId → t.status = "ToDo") := by
  refine ⟨?_, rfl, ?_⟩
  · intro t ht hid
    obtain ⟨s, -, rfl⟩ := List.mem_map.mp ht
    by_cases h : s.task_id == taskId
    · simp [h]
    · rw [if_neg h] at hid ⊢
      exact absurd (by simp [hid]) h
  · intro t ht hid
    simp only [handleUpdateTaskStatus, if_neg (by decide : ¬ (false = true)), hfind] at ht
    obtain ⟨s, -, rfl⟩ := List.mem_map.mp ht
    by_cases h : s.task_id == taskId
    · simp [h, hstatus]
    · rw [if_neg h] at hid ⊢
      exact absurd (by simp [hid]) h

/-- Witness for the hypotheses of `handleUpdateTaskStatus_optimistic`. -/
theorem handleUpdateTaskStatus_optimistic_witness :
    (handleUpdateTaskStatus [⟨"t1", "p1", "x", "ToDo", none, 5⟩] "t1" "InProgress" true).2 =
      (handleUpdateTaskStatus [⟨"t1", "p1", "x", "ToDo", none, 5⟩]
        "t1" "InProgress" true).1 ∧
    (∀ t ∈ (handleUpdateTaskStatus [⟨"t1", "p1", "x", "ToDo", none, 5⟩]
      "t1" "InProgress" false).2, t.task_id = "t1" → t.status = "ToDo") := by
  have h := handleUpdateTaskStatus_optimistic [⟨"t1", "p1", "x", "ToDo", none, 5⟩]
    "t1" ⟨"t1", "p1", "x", "ToDo", none, 5⟩ (by decide) rfl
  exact ⟨h.2.1, h.2.2⟩

/-! `subscribeToProjectMembers` (part_000 lines 435-462): one stream per
member id, merged into an accumulated `Map` keyed by member id.  On a
document snapshot that exists, the map entry is set and the full value
list is emitted; on a snapshot of a missing document, and on a stream
error, nothing happens — the entry is neither removed nor re-emitted. -/

/-- An event on one per-member stream: a document snapshot for the given
member id (`none` when the document does not exist), or a stream error. -/
inductive MemberEvent
  | snap (id : String) (data : Option ProjectMember)
  | errored (id : String)
  deriving DecidableEq, Repr

/-- One per-member stream callback (part_000 lines 443-453): on an
existing document, `membersMap.set(id, doc.data())` then
`callback(Array.from(membersMap.values()))`; otherwise nothing. -/
def stepMember (m : List (String × ProjectMember)) :
    MemberEvent → List (String × ProjectMember) × List (List ProjectMember)
  | .snap id (some d) =>
      let mNew := objSet m id d
      (mNew, [mNew.map Prod.snd])
  | .snap _ none => (m, [])
  | .errored _ => (m, [])

/-- Process a sequence of member-stream events, accumulating the map and
collecting every emitted member list in order. -/
def memberRun : List (String × ProjectMember) → List MemberEvent →
    List (String × ProjectMember) × List (List ProjectMember)
  | m, [] => (m, [])
  | m, e :: es =>
      ((memberRun (stepMember m e).1 es).1,
        (stepMember m e).2 ++ (memberRun (stepMember m e).1 es).2)

/-- The member lists emitted by a `subscribeToProjectMembers` call that
observes the given event sequence, starting from the empty map. -/
def subscribeToProjectMembersRun (events : List MemberEvent) : List (List ProjectMember) :=
  (memberRun [] events).2

/-- The ids whose user document has been observed to exist at least once
in the event sequence. -/
def seenIds (events : List MemberEvent) : List String :=
  events.filterMap fun e =>
    match e with
    | .snap id (some _) => some id
    | _ => none

/-- The member ids named in an emitted member list. -/
def idsOf (L : List ProjectMember) : List String :=
  L.map ProjectMember.user_id

/-- The keys of the accumulated map. -/
def keysOf (m : List (String × ProjectMember)) : List String :=
  m.map Prod.fst

/-- Every map entry's record names the id it is keyed by — the invariant
a well-formed `users` collection maintains. -/
def mapConsistent (m : List (String × ProjectMember)) : Prop :=
  ∀ kv ∈ m, kv.2.user_id = kv.1

/-- The snapshot for member id `id` carries a user record whose
`user_id` field is `id` — Firestore `users` documents are keyed by the
user's id. -/
def eventConsistent : MemberEvent → Prop
  | .snap id (some d) => d.user_id = id
  | .snap _ none => True
  | .errored _ => True

instance : (e : MemberEvent) → Decidable (eventConsistent e)
  | .snap id (some d) => inferInstanceAs (Decidable (d.user_id = id))
  | .snap _ none => Decidable.isTrue trivial
  | .errored _ => Decidable.isTrue trivial

theorem seenIds_append (a b : List MemberEvent) :
    seenIds (a ++ b) = seenIds a ++ seenIds b := by
  simp [seenIds]

theorem keysOf_objSet (m : List (String × ProjectMember)) (k : String)
    (v : ProjectMember) (x : String) :
    x ∈ keysOf (objSet m k v) ↔ (x ∈ keysOf m ∨ x = k) := by
  unfold objSet
  split
  case isTrue h =>
    have hkeys : keysOf (m.map fun kv => if kv.1 == k then (k, v) else kv) = keysOf m := by
      unfold keysOf
      rw [List.map_map]
      refine List.map_congr_left ?_
      intro kv _
      by_cases hk : kv.1 == k
      · simp only [Function.comp_apply, if_pos hk]
        exact (eq_of_beq hk).symm
      · simp only [Function.comp_apply, if_neg hk]
    rw [hkeys]
    constructor
    · exact Or.inl
    · rintro (hx | rfl)
      · exact hx
      · obtain ⟨kv, hkv, hbeq⟩ := List.any_eq_true.mp h
        exact (eq_of_beq hbeq) ▸ List.mem_map.mpr ⟨kv, hkv, rfl⟩
  case isFalse h =>
    unfold keysOf
    simp [List.mem_append]

theorem mapConsistent_objSet (m : List (String × ProjectMember)) (k : String)
    (v : ProjectMember) (hm : mapConsistent m) (hv : v.user_id = k) :
    mapConsistent (objSet m k v) := by
  unfold objSet
  split
  case isTrue h =>
    intro kv hkv
    obtain ⟨kv0, hkv0, rfl⟩ := List.mem_map.mp hkv
    by_cases hk : kv0.1 == k
    · rw [if_pos hk]
      exact hv
    · rw [if_neg hk]
      exact hm kv0 hkv0
  case isFalse h =>
    intro kv hkv
    rcases List.mem_append.mp hkv with hin | hone
    · exact hm kv hin
    · rw [List.mem_singleton.mp hone]
      exact hv

theorem idsOf_values (m : List (String × ProjectMember)) (hm : mapConsistent m) :
    idsOf (m.map Prod.snd) = keysOf m := by
  unfold idsOf keysOf
  rw [List.map_map]
  exact List.map_congr_left fun kv hkv => hm kv hkv

theorem seenIds_cons_some (id : String) (d : ProjectMember) (es : List MemberEvent) :
    seenIds (MemberEvent.snap id (some d) :: es) = id :: seenIds es := by
  simp [seenIds]

theorem memberRun_spec (events : List MemberEvent) :
    ∀ m, mapConsistent m → (∀ e ∈ events, eventConsistent e) →
    mapConsistent (memberRun m events).1 ∧
    (∀ x, x ∈ keysOf (memberRun m events).1 ↔ (x ∈ keysOf m ∨ x ∈ seenIds events)) ∧
    (∀ L ∈ (memberRun m events).2, ∃ pre suf, events = pre ++ suf ∧
      ∀ x, x ∈ idsOf L ↔ (x ∈ keysOf m ∨ x ∈ seenIds pre)) ∧
    (∀ x ∈ seenIds events, ∃ L ∈ (memberRun m events).2, x ∈ idsOf L) ∧
    (∀ L ∈ (memberRun m events).2, ∀ x ∈ keysOf m, x ∈ idsOf L) ∧
    List.Pairwise (fun L1 L2 => ∀ x ∈ idsOf L1, x ∈ idsOf L2) (memberRun m events).2 := by
  induction events with
  | nil =>
    intro m hm _
    refine ⟨hm, ?_, ?_, ?_, ?_, ?_⟩ <;> simp [memberRun, seenIds]
  | cons e es ih =>
    intro m hm hcons
    have hce : eventConsistent e := hcons e (List.mem_cons_self e es)
    have hces : ∀ x ∈ es, eventConsistent x := fun x hx => hcons x (List.mem_cons_of_mem e hx)
    cases e with
    | snap id data =>
      cases data with
      | some d =>
        have hd : d.user_id = id := hce
        have hm' : mapConsistent (objSet m id d) := mapConsistent_objSet m id d hm hd
        obtain ⟨ih1, ih2, ih3, ih4, ih5, ih6⟩ := ih (objSet m id d) hm' hces
        have hrun : memberRun m (MemberEvent.snap id (some d) :: es) =
            ((memberRun (objSet m id d) es).1,
              ((objSet m id d).map Prod.snd) :: (memberRun (objSet m id d) es).2) := by
          simp [memberRun, stepMember]
        rw [hrun]
        have hids : idsOf ((objSet m id d).map Prod.snd) = keysOf (objSet m id d) :=
          idsOf_values _ hm'
        refine ⟨ih1, ?_, ?_, ?_, ?_, ?_⟩
        · intro x
          rw [ih2 x, keysOf_objSet, seenIds_cons_some, List.mem_cons]
          tauto
        · intro L hL
          rcases List.mem_cons.mp hL with rfl | hL2
          · refine ⟨[MemberEvent.snap id (some d)], es, rfl, ?_⟩
            intro x
            rw [hids, keysOf_objSet]
            simp [seenIds]
          · obtain ⟨pre, suf, hsplit, hiff⟩ := ih3 L hL2
            refine ⟨MemberEvent.snap id (some d) :: pre, suf,
              by rw [hsplit, List.cons_append], ?_⟩
            intro x
            rw [hiff x, keysOf_objSet, seenIds_cons_some, List.mem_cons]
            tauto
        · intro x hx
          rw [seenIds_cons_some, List.mem_cons] at hx
          rcases hx with rfl | hx2
          · refine ⟨_, List.mem_cons_self _ _, ?_⟩
            rw [hids, keysOf_objSet]
            exact Or.inr rfl
          · obtain ⟨L, hL, hxL⟩ := ih4 x hx2
            exact ⟨L, List.mem_cons_of_mem _ hL, hxL⟩
        · intro L hL x hx
          rcases List.mem_cons.mp hL with rfl | hL2
          · rw [hids, keysOf_objSet]
            exact Or.inl hx
          · exact ih5 L hL2 x ((keysOf_objSet m id d x).mpr (Or.inl hx))
        · refine List.pairwise_cons.mpr ⟨?_, ih6⟩
          intro L2 hL2 x hx
          rw [hids] at hx
          exact ih5 L2 hL2 x hx
      | none =>
        obtain ⟨ih1, ih2, ih3, ih4, ih5, ih6⟩ := ih m hm hces
        have hrun : memberRun m (MemberEvent.snap id none :: es) =
            ((memberRun m es).1, (memberRun m es).2) := by
          simp [memberRun, stepMember]
        have hseen : seenIds (MemberEvent.snap id none :: es) = seenIds es := by
          simp [seenIds]
        rw [hrun, hseen]
        refine ⟨ih1, ih2, ?_, ih4, ih5, ih6⟩
        intro L hL
        obtain ⟨pre, suf, hsplit, hiff⟩ := ih3 L hL
        refine ⟨MemberEvent.snap id none :: pre, suf,
          by rw [hsplit, List.cons_append], ?_⟩
        intro x
        rw [hiff x]
        simp [seenIds]
    | errored id =>
      obtain ⟨ih1, ih2, ih3, ih4, ih5, ih6⟩ := ih m hm hces
      have hrun : memberRun m (MemberEvent.errored id :: es) =
          ((memberRun m es).1, (memberRun m es).2) := by
        simp [memberRun, stepMember]
      have hseen : seenIds (MemberEvent.errored id :: es) = seenIds es := by
        simp [seenIds]
      rw [hrun, hseen]
      refine ⟨ih1, ih2, ?_, ih4, ih5, ih6⟩
      intro L hL
      obtain ⟨pre, suf, hsplit, hiff⟩ := ih3 L hL
      refine ⟨MemberEvent.errored id :: pre, suf,
        by rw [hsplit, List.cons_append], ?_⟩
      intro x
      rw [hiff x]
      simp [seenIds]

/-- C10: under the invariant that each user document names its own id,
the member lists emitted by `subscribeToProjectMembers` grow
monotonically — an id included in one emitted list is included in every
later one, even if the user document is later deleted; each emitted list
names exactly the ids observed to exist in some prefix of the events up
to that emission; every id observed to exist is eventually emitted; and
an id whose document never existed is never emitted. -/
theorem subscribeToProjectMembers_accumulates (events : List MemberEvent)
    (hcons : ∀ e ∈ events, eventConsistent e) :
    List.Pairwise (fun L1 L2 => ∀ x ∈ idsOf L1, x ∈ idsOf L2)
      (subscribeToProjectMembersRun events) ∧
    (∀ L ∈ subscribeToProjectMembersRun events, ∃ pre suf, events = pre ++ suf ∧
      ∀ x, x ∈ idsOf L ↔ x ∈ seenIds pre) ∧
    (∀ x ∈ seenIds events, ∃ L ∈ subscribeToProjectMembersRun events, x ∈ idsOf L) ∧
    (∀ L ∈ subscribeToProjectMembersRun events, ∀ x ∈ idsOf L, x ∈ seenIds events) := by
  obtain ⟨-, -, h3, h4, -, h6⟩ := memberRun_spec events [] (by simp [mapConsistent]) hcons
  refine ⟨h6, ?_, h4, ?_⟩
  · intro L hL
    obtain ⟨pre, suf, hsplit, hiff⟩ := h3 L hL
    refine ⟨pre, suf, hsplit, ?_⟩
    intro x
    rw [hiff x]
    simp [keysOf]
  · intro L hL x hx
    obtain ⟨pre, suf, hsplit, hiff⟩ := h3 L hL
    have hxpre : x ∈ seenIds pre := by
      have := (hiff x).mp hx
      simpa [keysOf] using this
    rw [hsplit, seenIds_append]
    exact List.mem_append_left _ hxpre

/-- Witness for the hypotheses of `subscribeToProjectMembers_accumulates`. -/
theorem subscribeToProjectMembers_accumulates_witness :
    ∃ L ∈ subscribeToProjectMembersRun
      [MemberEvent.snap "u1" (some ⟨"u1", "Ann"⟩), MemberEvent.snap "u2" none,
        MemberEvent.errored "u1", MemberEvent.snap "u2" (some ⟨"u2", "Bo"⟩)],
      "u1" ∈ idsOf L := by
  have h := subscribeToProjectMembers_accumulates
    [MemberEvent.snap "u1" (some ⟨"u1", "Ann"⟩), MemberEvent.snap "u2" none,
      MemberEvent.errored "u1", MemberEvent.snap "u2" (some ⟨"u2", "Bo"⟩)]
    (by decide)
  exact h.2.2.1 "u1" (by decide)

/-- Witness instantiating `createProject_members_and_join_code`. -/
theorem createProject_members_and_join_code_witness :
    "u1" ∈ (createProject (fun i => i) "n" Duration.h24 "u1" "p1" 0).members ∧
    (createProject (fun i => i) "n" Duration.h24 "u1" "p1" 0).join_code.length = 6 := by
  have h := createProject_members_and_join_code (fun i => i) "n" Duration.h24 "u1" "p1" 0
  exact ⟨h.1, h.2.1⟩

/-- Witness instantiating `strippingOps_no_undefined`. -/
theorem strippingOps_no_undefined_witness :
    payloadHasUndef (createTaskPayload [("extra", FieldValue.undef)] "t1" 5) = false :=
  (strippingOps_no_undefined [("extra", FieldValue.undef)] [] [] [] [] [] "t1" "r1"
    "a1" "n1" 5).1

/-- Witness instantiating `snapshot_fixed_order`. -/
theorem snapshot_fixed_order_witness :
    List.Sorted (byDesc TaskRec.last_updated)
      (tasksSnapshot 10 [⟨"t1", "p1", "a", "ToDo", none, some 3⟩,
        ⟨"t2", "p1", "b", "Done", none, none⟩]) ∧
    List.Perm
      (tasksSnapshot 10 [⟨"t1", "p1", "a", "ToDo", none, some 3⟩,
        ⟨"t2", "p1", "b", "Done", none, none⟩])
      ([⟨"t1", "p1", "a", "ToDo", none, some 3⟩,
        (⟨"t2", "p1", "b", "Done", none, none⟩ : TaskDoc)].map (mapTaskDoc 10)) := by
  have h := snapshot_fixed_order 10 [⟨"t1", "p1", "a", "ToDo", none, some 3⟩,
    ⟨"t2", "p1", "b", "Done", none, none⟩] [] [] [] []
  exact ⟨h.2.1, h.1⟩

end Hackmate
